import Mathlib

/-!
Verification of the Relax pass-registration layer, the IR-builder glue, and
the pass pipeline against their specification.

The definitions below are a shallow embedding:
* `function_pass`, `dataflowblock_pass`, `BindParams`, `arg`, `output`,
  `emit`, `emit_match_shape` are translated from
  `src/python/tvm/relax/transform/transform.py` and
  `src/python/tvm/script/ir_builder/relax/ir.py`.
* The native FrameStack and the pass-pipeline runner are not shipped in this
  repository's Python sources; definitions for them are modelled from the
  specification text and carry a `Modelled from the spec:` note.
-/

namespace RelaxSpec

/-- Python exception classes raised by the embedded code paths. -/
inductive PyError where
  | valueError (msg : String)
  | typeError (msg : String)
  | assertionError (msg : String)
deriving DecidableEq, Repr

/-! ## Pass metadata (`tvm.transform.PassInfo`) -/

/-- `tvm.transform.PassInfo(opt_level, name, required, traceable)`. -/
structure PassInfo where
  opt_level : Int
  name : String
  required : List String
  traceable : Bool
deriving DecidableEq, Repr

/-! ## `function_pass` / `dataflowblock_pass`
    (src/python/tvm/relax/transform/transform.py) -/

/-- The Python value handed to `function_pass`/`dataflowblock_pass` as
`pass_func`: a class (`inspect.isclass`), a plain function or lambda
(`types.FunctionType` / `types.LambdaType`), or some other callable.
The string is the object's `__name__`. -/
inductive PassArg where
  | pyClass (n : String)
  | pyFunc (n : String)
  | otherCallable (n : String)
deriving DecidableEq, Repr

/-- `pass_arg.__name__`. -/
def PassArg.pyName : PassArg → String
  | .pyClass n => n
  | .pyFunc n => n
  | .otherCallable n => n

/-- Whether `pass_arg` is neither a class nor a plain function/lambda. -/
def PassArg.isOtherCallable : PassArg → Bool
  | .otherCallable _ => true
  | _ => false

/-- The Python `required` argument: `None`, a list/tuple of names, or a value
of some other type (which fails the `isinstance(required, (list, tuple))`
check whenever it is truthy). -/
inductive RequiredArg where
  | pyNone
  | pyList (xs : List String)
  | nonList
deriving DecidableEq, Repr

/-- `required = required if required else []` followed by the
`isinstance(required, (list, tuple))` check.  `None` and the empty list are
falsy and become `[]`; a truthy non-list raises `TypeError`. -/
def resolveRequired : RequiredArg → Except PyError (List String)
  | .pyNone => .ok []
  | .pyList xs => .ok xs
  | .nonList => .error (.typeError ("Required is expected to be the type of " ++ "list/tuple."))

/-- `fname = name if name else pass_arg.__name__` (Python string truthiness:
`None` and `""` both fall back to the decorated object's `__name__`). -/
def resolveFname (name : Option String) (argName : String) : String :=
  match name with
  | some s => if s.isEmpty then argName else s
  | none => argName

/-- Result of `create_function_pass(pass_arg)`: either a `FunctionPass`
object produced by `_ffi_api.MakeFunctionPass(pass_arg, info)`, or the
wrapper *class* `PyFunctionPass` produced by `_wrap_class_function_pass`. -/
inductive FunctionPassRes where
  | functionPass (info : PassInfo)
  | wrapperClass (clsName : String) (info : PassInfo)
deriving DecidableEq, Repr

/-- What `function_pass` itself returns: the decorator closure
`create_function_pass` (when `pass_func` is absent) or the decorated
result. -/
inductive FunctionPassRet where
  | decorator (opt_level : Int) (name : Option String) (required : List String) (traceable : Bool)
  | made (r : FunctionPassRes)
deriving DecidableEq, Repr

/-- `create_function_pass` from the body of `function_pass`. -/
def create_function_pass (opt_level : Int) (name : Option String)
    (required : List String) (traceable : Bool) (pass_arg : PassArg) :
    Except PyError FunctionPassRes :=
  let fname := resolveFname name pass_arg.pyName
  let info : PassInfo := ⟨opt_level, fname, required, traceable⟩
  match pass_arg with
  | .pyClass n => .ok (.wrapperClass n info)
  | .pyFunc _ => .ok (.functionPass info)
  | .otherCallable _ => .error (.typeError "pass_func must be a callable for Function pass")

/-- `relax.transform.function_pass(pass_func, opt_level, name, required, traceable)`. -/
def function_pass (pass_func : Option PassArg) (opt_level : Option Int)
    (name : Option String) (required : RequiredArg) (traceable : Bool) :
    Except PyError FunctionPassRet :=
  match opt_level with
  | none => .error (.valueError "Please provide opt_level for the function pass.")
  | some lvl =>
    match resolveRequired required with
    | .error e => .error e
    | .ok req =>
      match pass_func with
      | some pa =>
        match create_function_pass lvl name req traceable pa with
        | .error e => .error e
        | .ok r => .ok (.made r)
      | none => .ok (.decorator lvl name req traceable)

/-- Instantiating the wrapper class `PyFunctionPass(...)`: its `__init__`
calls `__init_handle_by_constructor__(_ffi_api.MakeFunctionPass, _pass_func,
pass_info)`, so the instance is a `FunctionPass` carrying the captured
`PassInfo`. -/
def instantiateFunctionWrapper (info : PassInfo) : FunctionPassRes :=
  .functionPass info

/-- Result of `create_dataflowblock_pass(pass_arg)`. -/
inductive DataflowBlockPassRes where
  | dataflowBlockPass (info : PassInfo)
  | wrapperClass (clsName : String) (info : PassInfo)
deriving DecidableEq, Repr

/-- Instantiating the wrapper class `PyDataflowBlockPass(...)`: its
`__init__` calls `__init_handle_by_constructor__` with
`_ffi_api.MakeDataflowBlockPass` and the captured `PassInfo`, so the
instance is a `DataflowBlockPass`. -/
def instantiateDataflowBlockWrapper (info : PassInfo) : DataflowBlockPassRes :=
  .dataflowBlockPass info

/-- What `dataflowblock_pass` itself returns. -/
inductive DataflowBlockPassRet where
  | decorator (opt_level : Int) (name : Option String) (required : List String) (traceable : Bool)
  | made (r : DataflowBlockPassRes)
deriving DecidableEq, Repr

/-- `create_dataflowblock_pass` from the body of `dataflowblock_pass`. -/
def create_dataflowblock_pass (opt_level : Int) (name : Option String)
    (required : List String) (traceable : Bool) (pass_arg : PassArg) :
    Except PyError DataflowBlockPassRes :=
  let fname := resolveFname name pass_arg.pyName
  let info : PassInfo := ⟨opt_level, fname, required, traceable⟩
  match pass_arg with
  | .pyClass n => .ok (.wrapperClass n info)
  | .pyFunc _ => .ok (.dataflowBlockPass info)
  | .otherCallable _ => .error (.typeError "pass_func must be a callable for DataflowBlock pass")

/-- `relax.transform.dataflowblock_pass(pass_func, opt_level, name, required, traceable)`. -/
def dataflowblock_pass (pass_func : Option PassArg) (opt_level : Option Int)
    (name : Option String) (required : RequiredArg) (traceable : Bool) :
    Except PyError DataflowBlockPassRet :=
  match opt_level with
  | none => .error (.valueError "Please provide opt_level for the dataflowblock pass.")
  | some lvl =>
    match resolveRequired required with
    | .error e => .error e
    | .ok req =>
      match pass_func with
      | some pa =>
        match create_dataflowblock_pass lvl name req traceable pa with
        | .error e => .error e
        | .ok r => .ok (.made r)
      | none => .ok (.decorator lvl name req traceable)

/-- Does `function_pass` return an actual `FunctionPass` object (a Pass
value, not a wrapper class and not a decorator)? -/
def isFunctionPassValue : Except PyError FunctionPassRet → Bool
  | .ok (.made (.functionPass _)) => true
  | _ => false

/-- The `PassInfo.name` recorded in whatever `function_pass` produced. -/
def recordedNameF : Except PyError FunctionPassRet → Option String
  | .ok (.made (.functionPass i)) => some i.name
  | .ok (.made (.wrapperClass _ i)) => some i.name
  | _ => none

/-- The `PassInfo.name` recorded in whatever `dataflowblock_pass` produced. -/
def recordedNameD : Except PyError DataflowBlockPassRet → Option String
  | .ok (.made (.dataflowBlockPass i)) => some i.name
  | .ok (.made (.wrapperClass _ i)) => some i.name
  | _ => none

/-! ## `BindParams` (src/python/tvm/relax/transform/transform.py) -/

/-- The payload of a constant tensor (its flattened contents; the numeric
details are irrelevant to the conversion logic being verified). -/
structure TensorData where
  data : List Int
deriving DecidableEq, Repr

/-- A value of the `params` dictionary handed to `BindParams`: a
`numpy.ndarray`, a `tvm.runtime.NDArray`, or a value of any other type
(held with the text of `type(v)` for the assertion message). -/
inductive ParamValue where
  | npArray (a : TensorData)
  | tvmND (a : TensorData)
  | otherVal (tyName : String)
deriving DecidableEq, Repr

/-- Is this params value of a type other than ndarray/NDArray? -/
def ParamValue.isOtherVal : ParamValue → Bool
  | .otherVal _ => true
  | _ => false

/-- The tensor payload of an ndarray/NDArray params value. -/
def ParamValue.payload : ParamValue → TensorData
  | .npArray a => a
  | .tvmND a => a
  | .otherVal _ => ⟨[]⟩

/-- `tvm.nd.array(v)`: wraps a numpy array's contents into a TVM NDArray. -/
def tvm_nd_array (a : TensorData) : TensorData := a

/-- The loop body of `BindParams`: convert one params value.
`if isinstance(v, np.ndarray): v = tvm.nd.array(v)` then
`assert isinstance(v, tvm.runtime.NDArray)`. -/
def convertParam : ParamValue → Except PyError TensorData
  | .npArray a => .ok (tvm_nd_array a)
  | .tvmND a => .ok a
  | .otherVal ty =>
      .error (.assertionError
        ("param values are expected to be TVM.NDArray or numpy.ndarray, but got " ++ ty))

/-- The `for k, v in params.items()` loop of `BindParams`, building
`tvm_params` in iteration order and stopping at the first failing assert. -/
def convertParams : List (String × ParamValue) → Except PyError (List (String × TensorData))
  | [] => .ok []
  | (k, v) :: rest =>
    match convertParam v with
    | .error e => .error e
    | .ok nd =>
      match convertParams rest with
      | .error e => .error e
      | .ok tail => .ok ((k, nd) :: tail)

/-- The result of `BindParams`: `delegated fn tvm_params` stands for the
final call `_ffi_api.BindParams(func_name, tvm_params)` into the native
bind-constants operation. -/
inductive BindParamsRes where
  | delegated (func_name : String) (tvm_params : List (String × TensorData))
deriving DecidableEq, Repr

/-- `relax.transform.BindParams(func_name, params)`. -/
def BindParams (func_name : String) (params : List (String × ParamValue)) :
    Except PyError BindParamsRes :=
  match convertParams params with
  | .error e => .error e
  | .ok tvm_params => .ok (.delegated func_name tvm_params)

/-! ## `arg` (src/python/tvm/script/ir_builder/relax/ir.py) -/

/-- A plain TVM `Type` (opaque to the logic being verified). -/
structure TypeV where
  tyName : String
deriving DecidableEq, Repr

/-- A shape expression: a list of (concrete) dimensions. -/
abbrev ShapeV := List Int

/-- `script.ir_builder.relax.TensorType`: carries both a type and an
optional shape. -/
structure TensorTypeV where
  shape : Option ShapeV
  type : TypeV
deriving DecidableEq, Repr

/-- The `type` argument of `arg`: `Union[Type, TensorType]`. -/
inductive ArgTypeArg where
  | plainType (t : TypeV)
  | tensorType (tt : TensorTypeV)
deriving DecidableEq, Repr

/-- The function parameter `Var` created by `_ffi_api.Arg(name, type, shape)`. -/
structure ArgVar where
  name : String
  type : TypeV
  shape : Option ShapeV
deriving DecidableEq, Repr

/-- `script.ir_builder.relax.arg(name, type, shape)`. -/
def arg (name : String) (type : ArgTypeArg) (shape : Option ShapeV) :
    Except PyError ArgVar :=
  match type with
  | .tensorType tt =>
    match shape with
    | some _ => .error (.valueError "Cannot specify the shape if we use TensorType")
    | none => .ok ⟨name, tt.type, tt.shape⟩
  | .plainType t => .ok ⟨name, t, shape⟩

/-! ## The frame-stack IR builder

The FrameStack itself lives in native code that is not part of this
repository's Python sources; it is modelled from the specification
(sections 3, 4.1 and 4.2 of the spec). -/

/-- Builder errors named by the spec's error taxonomy. -/
inductive BuilderError where
  | frameStackError
  | shapeMismatchError
  | notInDataflowBlockError
deriving DecidableEq, Repr

/-- An IR variable. -/
structure VarV where
  vname : String
deriving DecidableEq, Repr

/-- An IR expression, carrying the shape the builder infers for it. -/
inductive ExprV where
  | constE (shape : List Int)
  | varE (v : VarV) (shape : List Int)
deriving DecidableEq, Repr

/-- The inferred shape of an expression. -/
def shapeOf : ExprV → List Int
  | .constE s => s
  | .varE _ s => s

/-- One dimension of a match-shape pattern: symbolic or concrete. -/
inductive Dim where
  | sym (n : String)
  | lit (k : Int)
deriving DecidableEq, Repr

/-- A binding recorded in a block frame: a plain var binding or a
match-shape binding (whose var is present only when `emit_var` was true). -/
inductive BindingV where
  | bindV (v : VarV) (value : ExprV) (is_dataflow_var : Bool)
  | matchShapeB (v : Option VarV) (value : ExprV) (pattern : List Dim) (is_dataflow_var : Bool)
deriving DecidableEq, Repr

/-- The kind of a frame. -/
inductive FrameKind where
  | moduleK
  | functionK
  | blockK (is_dataflow : Bool)
  | ifK
  | thenK
  | elseK
deriving DecidableEq, Repr

/-- The immutable IR node a frame finalizes into on exit. -/
inductive FrameResult where
  | node (kind : FrameKind) (bindings : List BindingV) (outputs : List VarV)
deriving DecidableEq, Repr

/-- Modelled from the spec: a Frame — a scoped construction context with its
kind, pending bindings (append-only), declared dataflow outputs, and the
finalized results of already-closed child frames. -/
structure Frame where
  kind : FrameKind
  pending : List BindingV
  outputVars : List VarV
  accum : List FrameResult
deriving DecidableEq, Repr

/-- The FrameStack: top of stack is the head of the list. -/
abbrev FrameStack := List Frame

/-- Modelled from the spec: the legality check of `enter` — a dataflow
Block frame may only be entered while the top frame is a Function frame or
a non-dataflow Block frame; other kinds are unconstrained here. -/
def legalEnter (st : FrameStack) (k : FrameKind) : Bool :=
  match k with
  | .blockK true =>
    match st with
    | f :: _ =>
      match f.kind with
      | .functionK => true
      | .blockK false => true
      | _ => false
    | [] => false
  | _ => true

/-- Modelled from the spec: `enter(frame)` pushes the frame, failing with
`FrameStackError` when the frame kind is illegal in the current context. -/
def enter (st : FrameStack) (f : Frame) : Except BuilderError FrameStack :=
  if legalEnter st f.kind then .ok (f :: st) else .error .frameStackError

/-- The finalize routine: package the frame's accumulated state into an
immutable IR node. -/
def finalizeFrame (f : Frame) : FrameResult :=
  .node f.kind f.pending f.outputVars

/-- Modelled from the spec: `exit()` pops the top frame, finalizes it and
hands the result to the new top frame; it fails with `FrameStackError`
when the stack is empty. -/
def exit : FrameStack → Except BuilderError FrameStack
  | [] => .error .frameStackError
  | [_] => .ok []
  | f :: p :: rest => .ok (⟨p.kind, p.pending, p.outputVars, p.accum ++ [finalizeFrame f]⟩ :: rest)

/-- A fresh variable: named after the count of bindings already emitted. -/
def freshVar (st : FrameStack) : VarV :=
  ⟨"v" ++ toString (st.foldl (fun n f => n + f.pending.length) 0)⟩

/-- Modelled from the spec: `emit(value, is_dataflow_var)` — requires an
active Block frame, synthesizes a fresh Var, appends one binding in call
order and returns the Var. -/
def emit (st : FrameStack) (value : ExprV) (is_dataflow_var : Bool) :
    Except BuilderError (FrameStack × VarV) :=
  match st with
  | [] => .error .frameStackError
  | f :: rest =>
    match f.kind with
    | .blockK _ =>
      let v := freshVar (f :: rest)
      .ok (⟨f.kind, f.pending ++ [.bindV v value is_dataflow_var], f.outputVars, f.accum⟩ :: rest, v)
    | _ => .error .frameStackError

/-- Structural shape matching: the value's shape matches the pattern when
the ranks agree and every concrete pattern dimension equals the
corresponding value dimension (symbolic dimensions match anything). -/
def matchShape (valueShape : List Int) (pattern : List Dim) : Bool :=
  valueShape.length == pattern.length &&
  (valueShape.zip pattern).all fun dp =>
    match dp.2 with
    | .lit k => dp.1 == k
    | .sym _ => true

/-- Modelled from the spec: `emit_match_shape(value, pattern, emit_var,
is_dataflow_var)` — requires an active Block frame, structurally matches
the value's shape against the pattern (failing with `ShapeMismatchError`
on mismatch), appends a match-shape binding; when `emit_var` is true it
additionally performs the emit behaviour (fresh Var, bound in the
appended binding) and returns the created Var, else returns nothing. -/
def emit_match_shape (st : FrameStack) (value : ExprV) (pattern : List Dim)
    (emit_var is_dataflow_var : Bool) : Except BuilderError (FrameStack × Option VarV) :=
  match st with
  | [] => .error .frameStackError
  | f :: rest =>
    match f.kind with
    | .blockK _ =>
      if matchShape (shapeOf value) pattern then
        if emit_var then
          let v := freshVar (f :: rest)
          .ok (⟨f.kind, f.pending ++ [.matchShapeB (some v) value pattern is_dataflow_var],
                 f.outputVars, f.accum⟩ :: rest, some v)
        else
          .ok (⟨f.kind, f.pending ++ [.matchShapeB none value pattern is_dataflow_var],
                 f.outputVars, f.accum⟩ :: rest, none)
      else .error .shapeMismatchError
    | _ => .error .frameStackError

/-- Modelled from the spec: `_ffi_api.DataflowBlockOutput(vars)` — requires
the current frame to be a dataflow Block frame and records the given vars
as its output vars, failing with `NotInDataflowBlockError` otherwise. -/
def dataflowBlockOutput (st : FrameStack) (vars : List VarV) :
    Except BuilderError FrameStack :=
  match st with
  | [] => .error .frameStackError
  | f :: rest =>
    match f.kind with
    | .blockK true => .ok (⟨f.kind, f.pending, f.outputVars ++ vars, f.accum⟩ :: rest)
    | _ => .error .notInDataflowBlockError

/-- `script.ir_builder.relax.output(*vars)`: calls
`_ffi_api.DataflowBlockOutput(vars)` and then returns `vars` itself. -/
def output (st : FrameStack) (vars : List VarV) :
    Except BuilderError (FrameStack × List VarV) :=
  match dataflowBlockOutput st vars with
  | .error e => .error e
  | .ok st2 => .ok (st2, vars)

/-- The most recently appended binding of the top frame. -/
def lastBinding : FrameStack → Option BindingV
  | [] => none
  | f :: _ => f.pending.getLast?

/-- A single builder operation for reasoning about enter/exit sequences. -/
inductive BuildOp where
  | enterOp (f : Frame)
  | exitOp
deriving Repr

/-- Run one builder operation. -/
def stepOp (st : FrameStack) : BuildOp → Except BuilderError FrameStack
  | .enterOp f => enter st f
  | .exitOp => exit st

/-- Run a sequence of builder operations, failing fast. -/
def runOps (st : FrameStack) : List BuildOp → Except BuilderError FrameStack
  | [] => .ok st
  | op :: ops =>
    match stepOp st op with
    | .error e => .error e
    | .ok st2 => runOps st2 ops

/-- Sequences made of properly matched enter/exit pairs (Dyck words over
builder operations). -/
inductive Matched : List BuildOp → Prop
  | nil : Matched []
  | pair (f : Frame) (s t : List BuildOp) :
      Matched s → Matched t → Matched (BuildOp.enterOp f :: s ++ BuildOp.exitOp :: t)

/-! ## The pass pipeline runner

The runner is not part of this repository's Python sources; it is modelled
from the specification (section 4.4 of the spec). -/

/-- Pipeline-ordering errors named by the spec. -/
inductive PassError where
  | passDependencyError
  | passCycleError
deriving DecidableEq, Repr

/-- Are all of a pass's required names already scheduled (`done`)? -/
def depsDone (done : List String) (p : PassInfo) : Bool :=
  p.required.all fun r => decide (r ∈ done)

/-- Among the candidate (input-index, pass) pairs, select the minimum by
ascending `opt_level` and then by ascending input index (stable input
order). -/
def pickBest : List (Nat × PassInfo) → Option (Nat × PassInfo)
  | [] => none
  | x :: xs =>
    match pickBest xs with
    | none => some x
    | some b =>
      if b.2.opt_level < x.2.opt_level ∨ (b.2.opt_level = x.2.opt_level ∧ b.1 < x.1)
      then some b else some x

/-- Modelled from the spec: one Kahn-style topological sort round — among
the remaining passes whose required names are all already scheduled, pick
the tie-break minimum; if passes remain but none is schedulable, the
dependency graph has a cycle. `fuel` bounds the rounds. -/
def kahn : Nat → List (Nat × PassInfo) → List String →
    Except PassError (List (Nat × PassInfo))
  | 0, remaining, _ =>
    if remaining = [] then .ok [] else .error .passCycleError
  | fuel + 1, remaining, done =>
    if remaining = [] then .ok []
    else
      match pickBest (remaining.filter fun ip => depsDone done ip.2) with
      | none => .error .passCycleError
      | some ip =>
        match kahn fuel (remaining.erase ip) (done ++ [ip.2.name]) with
        | .error e => .error e
        | .ok rest => .ok (ip :: rest)

/-- Modelled from the spec: resolve the execution order of a pass
collection — fail with `PassDependencyError` when some required name is
absent from the provided pass set, otherwise topologically sort the
dependency graph built from the `required` names, breaking ties among
passes with no dependency relation by ascending `opt_level` and then by
stable input order, and fail with `PassCycleError` when no complete order
exists. -/
def schedule (passes : List PassInfo) : Except PassError (List (Nat × PassInfo)) :=
  if passes.all (fun p => p.required.all fun r => decide (r ∈ passes.map PassInfo.name)) then
    kahn passes.length passes.enum []
  else .error .passDependencyError

/-- Modelled from the spec: `run(module, passes, opt_level_ceiling)` —
keep the passes whose `opt_level` is at most the ceiling, resolve their
order with `schedule`, and apply each pass's transformation in the
resolved order, each consuming the module produced by the previous one. -/
def run {M : Type} (passes : List (PassInfo × (M → M))) (ceiling : Int) (m : M) :
    Except PassError M :=
  let active := passes.filter fun pf => pf.1.opt_level ≤ ceiling
  match schedule (active.map Prod.fst) with
  | .error e => .error e
  | .ok order =>
    .ok (order.foldl
      (fun acc ip =>
        match active[ip.1]? with
        | some pf => pf.2 acc
        | none => acc) m)

/-- An order respects the dependency graph when every pass's required
names all already occur among the names scheduled strictly before it. -/
def RespectsDeps (order : List (Nat × PassInfo)) : Prop :=
  ∀ i p, order[i]? = some p → ∀ r ∈ p.2.required,
    r ∈ (order.take i).map fun x => x.2.name

/-! ## Theorems -/

/-- Helper: `pickBest` selects one of the candidates. -/
theorem pickBest_mem (l : List (Nat × PassInfo)) (x : Nat × PassInfo)
    (h : pickBest l = some x) : x ∈ l := by
  induction l with
  | nil => cases h
  | cons a as ih =>
    simp only [pickBest] at h
    cases hp : pickBest as with
    | none =>
      rw [hp] at h
      cases h
      exact List.mem_cons_self _ _
    | some b =>
      simp only [hp] at h
      by_cases hc : b.2.opt_level < a.2.opt_level ∨ (b.2.opt_level = a.2.opt_level ∧ b.1 < a.1)
      · rw [if_pos hc] at h
        cases h
        exact List.mem_cons_of_mem _ (ih hp)
      · rw [if_neg hc] at h
        cases h
        exact List.mem_cons_self _ _

/-- Helper: every pass scheduled by `kahn` has all its required names
among the previously completed names. -/
theorem kahn_deps (fuel : Nat) :
    ∀ remaining done out, kahn fuel remaining done = .ok out →
      ∀ i p, out[i]? = some p → ∀ r ∈ p.2.required,
        r ∈ done ∨ r ∈ (out.take i).map (fun x => x.2.name) := by
  induction fuel with
  | zero =>
    intro remaining done out h i p hp r hr
    simp only [kahn] at h
    split at h
    · cases h; simp at hp
    · cases h
  | succ n ih =>
    intro remaining done out h i p hp r hr
    simp only [kahn] at h
    split at h
    · cases h; simp at hp
    · split at h
      next hpick => cases h
      next ip hpick =>
        split at h
        next e hk => cases h
        next rest hk =>
          cases h
          cases i with
          | zero =>
            have hp0 : ip = p := by simpa using hp
            subst hp0
            left
            have hdeps0 := List.of_mem_filter (pickBest_mem _ _ hpick)
            have hdeps : depsDone done ip.2 = true := hdeps0
            unfold depsDone at hdeps
            rw [List.all_eq_true] at hdeps
            exact of_decide_eq_true (hdeps r hr)
          | succ j =>
            have hp2 : rest[j]? = some p := by simpa using hp
            have hrec := ih (remaining.erase ip) (done ++ [ip.2.name]) rest hk j p hp2 r hr
            cases hrec with
            | inl hin =>
              rcases List.mem_append.mp hin with hd | hone
              · exact Or.inl hd
              · right
                have hone2 : r = ip.2.name := by simpa using hone
                simp [List.take_succ_cons, hone2]
            | inr htail =>
              right
              simp only [List.take_succ_cons, List.map_cons]
              exact List.mem_cons_of_mem _ htail
/-- Helper: a complete `kahn` run schedules exactly as many passes as
remain. -/
theorem kahn_length (fuel : Nat) :
    ∀ remaining done out, kahn fuel remaining done = .ok out →
      out.length = remaining.length := by
  induction fuel with
  | zero =>
    intro remaining done out h
    simp only [kahn] at h
    split at h
    · cases h; simp [*]
    · cases h
  | succ n ih =>
    intro remaining done out h
    simp only [kahn] at h
    split at h
    · cases h; simp [*]
    · rename_i hne
      split at h
      next hpick => cases h
      next ip hpick =>
        split at h
        next e hk => cases h
        next rest hk =>
          cases h
          have hmem : ip ∈ remaining :=
            List.mem_of_mem_filter (pickBest_mem _ _ hpick)
          have hlen := ih (remaining.erase ip) (done ++ [ip.2.name]) rest hk
          have herase := List.length_erase_of_mem hmem
          have hpos : 0 < remaining.length := List.length_pos.mpr hne
          simp only [List.length_cons, hlen, herase]
          omega

/-- Helper: every pass scheduled by `kahn` comes from the remaining set. -/
theorem kahn_subset (fuel : Nat) :
    ∀ remaining done out, kahn fuel remaining done = .ok out →
      ∀ x ∈ out, x ∈ remaining := by
  induction fuel with
  | zero =>
    intro remaining done out h x hx
    simp only [kahn] at h
    split at h
    · cases h; simp at hx
    · cases h
  | succ n ih =>
    intro remaining done out h x hx
    simp only [kahn] at h
    split at h
    · cases h; simp at hx
    · split at h
      next hpick => cases h
      next ip hpick =>
        split at h
        next e hk => cases h
        next rest hk =>
          cases h
          have hmem : ip ∈ remaining :=
            List.mem_of_mem_filter (pickBest_mem _ _ hpick)
          rcases List.mem_cons.mp hx with h1 | h2
          · rw [h1]; exact hmem
          · exact List.mem_of_mem_erase (ih (remaining.erase ip) (done ++ [ip.2.name]) rest hk x h2)

/-- Helper: a successful `schedule` is a complete, input-drawn,
dependency-respecting order. -/
theorem schedule_sound (passes : List PassInfo) (order : List (Nat × PassInfo))
    (h : schedule passes = .ok order) :
    order.length = passes.length ∧ (∀ x ∈ order, x.2 ∈ passes) ∧ RespectsDeps order := by
  unfold schedule at h
  split at h
  case isTrue hall =>
    refine ⟨?_, ?_, ?_⟩
    · rw [kahn_length passes.length passes.enum [] order h]
      exact List.enum_length
    · intro x hx
      have hxe := kahn_subset passes.length passes.enum [] order h x hx
      have hget := List.mem_enum_iff_get?.mp hxe
      exact List.get?_mem hget
    · intro i p hp r hr
      rcases kahn_deps passes.length passes.enum [] order h i p hp r hr with h1 | h2
      · simp at h1
      · exact h2
  case isFalse => cases h

/-- Helper: a required name absent from the pass set makes `schedule` fail
with `PassDependencyError`. -/
theorem schedule_missing_req (passes : List PassInfo)
    (h : ∃ p ∈ passes, ∃ r ∈ p.required, r ∉ passes.map PassInfo.name) :
    schedule passes = .error .passDependencyError := by
  unfold schedule
  split
  case isTrue hall =>
    exfalso
    rcases h with ⟨p, hp, r, hr, hnot⟩
    rw [List.all_eq_true] at hall
    have := hall p hp
    rw [List.all_eq_true] at this
    exact hnot (of_decide_eq_true (this r hr))
  case isFalse => rfl

/-- C1: `run` applies passes in an order resolved by topological sort of
the dependency graph built from the `required` names (every successful
schedule is complete, drawn from the input, and places every pass after all
its required passes), ties among independent passes break by ascending
`opt_level` and then by stable input order, a required name absent from the
pass set fails with `PassDependencyError`, and a dependency cycle fails
with `PassCycleError`; concrete conjuncts exercise the spec's `[B, A]`
example, the tie-breaks, both errors, and the ordered execution of the
transformations by `run`. -/
theorem pipeline_run_ordering :
    (∀ passes order, schedule passes = .ok order →
      order.length = passes.length ∧ (∀ x ∈ order, x.2 ∈ passes) ∧ RespectsDeps order) ∧
    (∀ passes : List PassInfo,
      (∃ p ∈ passes, ∃ r ∈ p.required, r ∉ passes.map PassInfo.name) →
      schedule passes = .error .passDependencyError) ∧
    schedule [⟨1, "B", ["A"], false⟩, ⟨1, "A", [], false⟩]
      = .ok [(1, ⟨1, "A", [], false⟩), (0, ⟨1, "B", ["A"], false⟩)] ∧
    schedule [⟨1, "B", ["Missing"], false⟩] = .error .passDependencyError ∧
    schedule [⟨1, "A", ["B"], false⟩, ⟨1, "B", ["A"], false⟩] = .error .passCycleError ∧
    schedule [⟨2, "C", [], false⟩, ⟨1, "D", [], false⟩]
      = .ok [(1, ⟨1, "D", [], false⟩), (0, ⟨2, "C", [], false⟩)] ∧
    schedule [⟨1, "E", [], false⟩, ⟨1, "F", [], false⟩]
      = .ok [(0, ⟨1, "E", [], false⟩), (1, ⟨1, "F", [], false⟩)] ∧
    (∀ m : List String,
      run [(⟨1, "B", ["A"], false⟩, fun l => l ++ ["B"]),
           (⟨1, "A", [], false⟩, fun l => l ++ ["A"])] 3 m
        = .ok (m ++ ["A"] ++ ["B"])) :=
  ⟨schedule_sound, schedule_missing_req, rfl, rfl, rfl, rfl, rfl, fun _ => rfl⟩

/-- C1 witness: the soundness conjunct applied to the concrete `[B, A]`
collection, and the missing-dependency conjunct applied to a pass
requiring an absent name. -/
theorem pipeline_run_ordering_witness :
    ([(1, (⟨1, "A", [], false⟩ : PassInfo)), (0, ⟨1, "B", ["A"], false⟩)].length
        = [(⟨1, "B", ["A"], false⟩ : PassInfo), ⟨1, "A", [], false⟩].length ∧
      (∀ x ∈ [(1, (⟨1, "A", [], false⟩ : PassInfo)), (0, ⟨1, "B", ["A"], false⟩)],
        x.2 ∈ [(⟨1, "B", ["A"], false⟩ : PassInfo), ⟨1, "A", [], false⟩]) ∧
      RespectsDeps [(1, ⟨1, "A", [], false⟩), (0, ⟨1, "B", ["A"], false⟩)]) ∧
    schedule [⟨1, "B", ["Missing"], false⟩] = .error .passDependencyError :=
  ⟨pipeline_run_ordering.1 [⟨1, "B", ["A"], false⟩, ⟨1, "A", [], false⟩]
      [(1, ⟨1, "A", [], false⟩), (0, ⟨1, "B", ["A"], false⟩)] rfl,
   pipeline_run_ordering.2.1 [⟨1, "B", ["Missing"], false⟩]
      ⟨⟨1, "B", ["Missing"], false⟩, List.mem_cons_self _ _, "Missing", List.mem_cons_self _ _,
        by decide⟩⟩

/-- C2: for every transformation function (a plain function or lambda) and
integer `opt_level`, `function_pass` returns a `FunctionPass` value, and
`dataflowblock_pass`, with the same argument shape, returns a
`DataflowBlockPass` value. -/
theorem pass_ctor_returns_pass_value (fn : String) (lvl : Int) (name : Option String)
    (reqxs : List String) (tr : Bool) :
    function_pass (some (.pyFunc fn)) (some lvl) name .pyNone tr
        = .ok (.made (.functionPass ⟨lvl, resolveFname name fn, [], tr⟩)) ∧
    function_pass (some (.pyFunc fn)) (some lvl) name (.pyList reqxs) tr
        = .ok (.made (.functionPass ⟨lvl, resolveFname name fn, reqxs, tr⟩)) ∧
    dataflowblock_pass (some (.pyFunc fn)) (some lvl) name .pyNone tr
        = .ok (.made (.dataflowBlockPass ⟨lvl, resolveFname name fn, [], tr⟩)) ∧
    dataflowblock_pass (some (.pyFunc fn)) (some lvl) name (.pyList reqxs) tr
        = .ok (.made (.dataflowBlockPass ⟨lvl, resolveFname name fn, reqxs, tr⟩)) :=
  ⟨rfl, rfl, rfl, rfl⟩

/-- C3 counterexample: decorating a plain function yields a Pass value, but
decorating a class yields the wrapper *class*, not a Pass value — so the
pass constructor does not produce the same uniform kind of result for both,
contradicting the claim as stated. -/
theorem class_decoration_not_pass_value :
    isFunctionPassValue
        (function_pass (some (.pyFunc "transform")) (some 1) none .pyNone false) = true ∧
    isFunctionPassValue
        (function_pass (some (.pyClass "TestReplaceFunc")) (some 1) none .pyNone false) = false ∧
    function_pass (some (.pyClass "TestReplaceFunc")) (some 1) none .pyNone false
      = .ok (.made (.wrapperClass "TestReplaceFunc" ⟨1, "TestReplaceFunc", [], false⟩)) :=
  ⟨rfl, rfl, rfl⟩

/-- C3 amended: decorating a plain callable yields a `FunctionPass` value
directly, while decorating a class yields a wrapper class whose
instantiation yields a `FunctionPass` value carrying the same `PassInfo`
(and identically for `dataflowblock_pass`); so the two registration routes
agree only after the class-produced wrapper is instantiated. -/
theorem pass_registration_uniform_after_instantiation (lvl : Int) (fn cls : String) (tr : Bool) :
    function_pass (some (.pyFunc fn)) (some lvl) none .pyNone tr
      = .ok (.made (.functionPass ⟨lvl, fn, [], tr⟩)) ∧
    function_pass (some (.pyClass cls)) (some lvl) none .pyNone tr
      = .ok (.made (.wrapperClass cls ⟨lvl, cls, [], tr⟩)) ∧
    instantiateFunctionWrapper ⟨lvl, cls, [], tr⟩ = .functionPass ⟨lvl, cls, [], tr⟩ ∧
    dataflowblock_pass (some (.pyFunc fn)) (some lvl) none .pyNone tr
      = .ok (.made (.dataflowBlockPass ⟨lvl, fn, [], tr⟩)) ∧
    dataflowblock_pass (some (.pyClass cls)) (some lvl) none .pyNone tr
      = .ok (.made (.wrapperClass cls ⟨lvl, cls, [], tr⟩)) ∧
    instantiateDataflowBlockWrapper ⟨lvl, cls, [], tr⟩ = .dataflowBlockPass ⟨lvl, cls, [], tr⟩ :=
  ⟨rfl, rfl, rfl, rfl, rfl, rfl⟩

/-- C6: whenever `output` succeeds it returns exactly the vars that were
passed in, unchanged and in order. -/
theorem output_passthrough (st : FrameStack) (vars : List VarV) (st2 : FrameStack)
    (res : List VarV) (h : output st vars = .ok (st2, res)) : res = vars := by
  unfold output at h
  cases hd : dataflowBlockOutput st vars with
  | error e => rw [hd] at h; cases h
  | ok s => rw [hd] at h; cases h; rfl

/-- C6 witness: `output` on a dataflow block frame with one var returns
that var. -/
theorem output_passthrough_witness : ([⟨"gv0"⟩] : List VarV) = [⟨"gv0"⟩] :=
  output_passthrough [⟨.blockK true, [], [], []⟩] [⟨"gv0"⟩]
    [⟨.blockK true, [], [⟨"gv0"⟩], []⟩] [⟨"gv0"⟩] rfl

/-- C8: omitting `opt_level` makes `function_pass` and `dataflowblock_pass`
fail with `ValueError` regardless of the other arguments, before any pass
or decorator is constructed. -/
theorem pass_ctor_requires_opt_level (pass_func : Option PassArg) (name : Option String)
    (required : RequiredArg) (tr : Bool) :
    function_pass pass_func none name required tr
      = .error (.valueError "Please provide opt_level for the function pass.") ∧
    dataflowblock_pass pass_func none name required tr
      = .error (.valueError "Please provide opt_level for the dataflowblock pass.") :=
  ⟨rfl, rfl⟩

/-- C9: with `name` omitted or empty the recorded `PassInfo` name is the
decorated function's or class's `__name__`; a non-empty `name` is recorded
as given — for both `function_pass` and `dataflowblock_pass`. -/
theorem pass_name_defaults (lvl : Int) (tr : Bool) (pa : PassArg) (s : String)
    (hpa : pa.isOtherCallable = false) (hs : s ≠ "") :
    recordedNameF (function_pass (some pa) (some lvl) none .pyNone tr) = some pa.pyName ∧
    recordedNameF (function_pass (some pa) (some lvl) (some "") .pyNone tr) = some pa.pyName ∧
    recordedNameF (function_pass (some pa) (some lvl) (some s) .pyNone tr) = some s ∧
    recordedNameD (dataflowblock_pass (some pa) (some lvl) none .pyNone tr) = some pa.pyName ∧
    recordedNameD (dataflowblock_pass (some pa) (some lvl) (some "") .pyNone tr) = some pa.pyName ∧
    recordedNameD (dataflowblock_pass (some pa) (some lvl) (some s) .pyNone tr) = some s := by
  have hse : s.isEmpty = false := by
    cases hse : s.isEmpty
    · rfl
    · exact absurd ((String.isEmpty_iff s).mp hse) hs
  have h0 : "".isEmpty = true := rfl
  cases pa with
  | pyClass n =>
    simp [function_pass, dataflowblock_pass, resolveRequired, create_function_pass,
      create_dataflowblock_pass, resolveFname, recordedNameF, recordedNameD,
      PassArg.pyName, hse, h0]
  | pyFunc n =>
    simp [function_pass, dataflowblock_pass, resolveRequired, create_function_pass,
      create_dataflowblock_pass, resolveFname, recordedNameF, recordedNameD,
      PassArg.pyName, hse, h0]
  | otherCallable n => simp [PassArg.isOtherCallable] at hpa

/-- C9 witness: the defaults at a concrete function named `transform` and a
concrete explicit name. -/
theorem pass_name_defaults_witness :
    recordedNameF (function_pass (some (.pyFunc "transform")) (some 2) none .pyNone false)
        = some (PassArg.pyFunc "transform").pyName ∧
    recordedNameF (function_pass (some (.pyFunc "transform")) (some 2) (some "") .pyNone false)
        = some (PassArg.pyFunc "transform").pyName ∧
    recordedNameF (function_pass (some (.pyFunc "transform")) (some 2) (some "Custom") .pyNone false)
        = some "Custom" ∧
    recordedNameD (dataflowblock_pass (some (.pyFunc "transform")) (some 2) none .pyNone false)
        = some (PassArg.pyFunc "transform").pyName ∧
    recordedNameD (dataflowblock_pass (some (.pyFunc "transform")) (some 2) (some "") .pyNone false)
        = some (PassArg.pyFunc "transform").pyName ∧
    recordedNameD (dataflowblock_pass (some (.pyFunc "transform")) (some 2) (some "Custom") .pyNone false)
        = some "Custom" :=
  pass_name_defaults 2 false (.pyFunc "transform") "Custom" rfl (by decide)

/-- Helper: running a concatenation of builder operations runs the two
parts in sequence. -/
theorem runOps_append (a b : List BuildOp) (st : FrameStack) :
    runOps st (a ++ b) = match runOps st a with
      | .error e => .error e
      | .ok st2 => runOps st2 b := by
  induction a generalizing st with
  | nil => rfl
  | cons op ops ih =>
    simp only [List.cons_append, runOps]
    cases stepOp st op with
    | error e => rfl
    | ok st2 => exact ih st2

/-- Helper: a successful `enter` grows the stack by exactly one frame. -/
theorem enter_length (st : FrameStack) (f : Frame) (st2 : FrameStack)
    (h : enter st f = .ok st2) : st2.length = st.length + 1 := by
  unfold enter at h
  split at h
  · cases h; rfl
  · cases h

/-- Helper: a successful `exit` shrinks the stack by exactly one frame. -/
theorem exit_length (st st2 : FrameStack) (h : RelaxSpec.exit st = .ok st2) :
    st.length = st2.length + 1 := by
  cases st with
  | nil => exact absurd h (by simp [RelaxSpec.exit])
  | cons f rest =>
    cases rest with
    | nil => cases h; rfl
    | cons p rs => cases h; rfl

/-- Helper: a successfully executed matched enter/exit sequence restores
the stack depth. -/
theorem runOps_matched (ops : List BuildOp) (hm : Matched ops) :
    ∀ st st2, runOps st ops = .ok st2 → st2.length = st.length := by
  induction hm with
  | nil => intro st st2 h; cases h; rfl
  | pair f s t _ _ ihs iht =>
    intro st st2 h
    simp only [runOps, stepOp] at h
    cases he : enter st f with
    | error e => simp only [he] at h; cases h
    | ok st1 =>
      simp only [he] at h
      have h2 : runOps st1 (s ++ BuildOp.exitOp :: t) = Except.ok st2 := h
      rw [runOps_append] at h2
      cases h1 : runOps st1 s with
      | error e => simp only [h1] at h2; cases h2
      | ok stA =>
        simp only [h1] at h2
        simp only [runOps, stepOp] at h2
        cases he2 : RelaxSpec.exit stA with
        | error e => simp only [he2] at h2; cases h2
        | ok stB =>
          simp only [he2] at h2
          have l1 := enter_length st f st1 he
          have l2 := ihs st1 stA h1
          have l3 := exit_length stA stB he2
          have l4 := iht stB st2 h2
          omega

/-- C4: after any successfully executed sequence of matched enter/exit
operations the FrameStack depth equals the depth before they began, and an
exit attempted on an empty stack fails with `FrameStackError`. -/
theorem frame_stack_discipline (st st2 : FrameStack) (ops : List BuildOp)
    (hm : Matched ops) (h : runOps st ops = .ok st2) :
    st2.length = st.length ∧
    RelaxSpec.exit ([] : FrameStack) = .error .frameStackError :=
  ⟨runOps_matched ops hm st st2 h, rfl⟩

/-- C4 witness: entering and exiting one module frame on the empty stack
restores depth zero, and the bare exit on the empty stack fails. -/
theorem frame_stack_discipline_witness :
    ([] : FrameStack).length = ([] : FrameStack).length ∧
    RelaxSpec.exit ([] : FrameStack) = .error .frameStackError :=
  frame_stack_discipline [] [] [BuildOp.enterOp ⟨.moduleK, [], [], []⟩, BuildOp.exitOp]
    (Matched.pair ⟨.moduleK, [], [], []⟩ [] [] Matched.nil Matched.nil) rfl

/-- C5: a successful `emit_match_shape` with `emit_var` true performs the
emit behaviour (the appended match-shape binding carries the created Var)
and returns that Var; a successful call with `emit_var` false returns
nothing. -/
theorem emit_match_shape_returns (st : FrameStack) (value : ExprV) (pattern : List Dim)
    (df : Bool) (st2 : FrameStack) (res : Option VarV) :
    (emit_match_shape st value pattern true df = .ok (st2, res) →
      ∃ v, res = some v ∧
        lastBinding st2 = some (.matchShapeB (some v) value pattern df)) ∧
    (emit_match_shape st value pattern false df = .ok (st2, res) → res = none) := by
  constructor
  · intro h
    cases st with
    | nil => exact absurd h (by simp [emit_match_shape])
    | cons f rest =>
      obtain ⟨k, pend, out, acc⟩ := f
      cases k with
      | blockK isdf =>
        by_cases hm : matchShape (shapeOf value) pattern = true
        · simp only [emit_match_shape, hm, if_true] at h
          cases h
          refine ⟨freshVar (⟨.blockK isdf, pend, out, acc⟩ :: rest), rfl, ?_⟩
          simp [lastBinding]
        · simp [emit_match_shape, hm] at h
      | moduleK => exact absurd h (by simp [emit_match_shape])
      | functionK => exact absurd h (by simp [emit_match_shape])
      | ifK => exact absurd h (by simp [emit_match_shape])
      | thenK => exact absurd h (by simp [emit_match_shape])
      | elseK => exact absurd h (by simp [emit_match_shape])
  · intro h
    cases st with
    | nil => exact absurd h (by simp [emit_match_shape])
    | cons f rest =>
      obtain ⟨k, pend, out, acc⟩ := f
      cases k with
      | blockK isdf =>
        by_cases hm : matchShape (shapeOf value) pattern = true
        · simp only [emit_match_shape, hm, if_true] at h
          cases h
          rfl
        · simp [emit_match_shape, hm] at h
      | moduleK => exact absurd h (by simp [emit_match_shape])
      | functionK => exact absurd h (by simp [emit_match_shape])
      | ifK => exact absurd h (by simp [emit_match_shape])
      | thenK => exact absurd h (by simp [emit_match_shape])
      | elseK => exact absurd h (by simp [emit_match_shape])

/-- C5 witness: a concrete successful match-shape emission inside a
dataflow block frame, with `emit_var` true. -/
theorem emit_match_shape_returns_witness :
    ∃ v, (some (⟨"v0"⟩ : VarV) : Option VarV) = some v ∧
      lastBinding [⟨.blockK true,
          [.matchShapeB (some ⟨"v0"⟩) (.constE [2]) [.lit 2] false], [], []⟩]
        = some (.matchShapeB (some v) (.constE [2]) [.lit 2] false) :=
  (emit_match_shape_returns [⟨.blockK true, [], [], []⟩] (.constE [2]) [.lit 2] false
    [⟨.blockK true, [.matchShapeB (some ⟨"v0"⟩) (.constE [2]) [.lit 2] false], [], []⟩]
    (some ⟨"v0"⟩)).1 rfl

/-- C7: `BindParams` converts every `numpy.ndarray` value to a TVM NDArray
before delegating to the native bind-constants operation (NDArray values
pass through), and a mapping containing a value of any other type makes it
fail before delegating. -/
theorem bind_params_conversion (fn : String) (params : List (String × ParamValue)) :
    ((∀ kv ∈ params, kv.2.isOtherVal = false) →
      BindParams fn params
        = .ok (.delegated fn (params.map fun kv => (kv.1, kv.2.payload)))) ∧
    ((∃ kv ∈ params, kv.2.isOtherVal = true) →
      ∃ e, BindParams fn params = .error e) := by
  constructor
  · intro hall
    have hconv : convertParams params
        = .ok (params.map fun kv => (kv.1, kv.2.payload)) := by
      induction params with
      | nil => rfl
      | cons kv rest ih =>
        obtain ⟨k, v⟩ := kv
        have hv := hall (k, v) (List.mem_cons_self _ _)
        have hrest : ∀ kv ∈ rest, kv.2.isOtherVal = false :=
          fun x hx => hall x (List.mem_cons_of_mem _ hx)
        cases v with
        | npArray a =>
          simp [convertParams, convertParam, tvm_nd_array, ih hrest, ParamValue.payload]
        | tvmND a =>
          simp [convertParams, convertParam, ih hrest, ParamValue.payload]
        | otherVal ty => simp [ParamValue.isOtherVal] at hv
    simp [BindParams, hconv]
  · intro hsome
    have hconv : ∃ e, convertParams params = .error e := by
      induction params with
      | nil => simp at hsome
      | cons kv rest ih =>
        obtain ⟨k, v⟩ := kv
        cases v with
        | npArray a =>
          have : ∃ x ∈ rest, x.2.isOtherVal = true := by
            rcases hsome with ⟨x, hx, hxo⟩
            rcases List.mem_cons.mp hx with h1 | h2
            · rw [h1] at hxo; simp [ParamValue.isOtherVal] at hxo
            · exact ⟨x, h2, hxo⟩
          rcases ih this with ⟨e, he⟩
          exact ⟨e, by simp [convertParams, convertParam, he]⟩
        | tvmND a =>
          have : ∃ x ∈ rest, x.2.isOtherVal = true := by
            rcases hsome with ⟨x, hx, hxo⟩
            rcases List.mem_cons.mp hx with h1 | h2
            · rw [h1] at hxo; simp [ParamValue.isOtherVal] at hxo
            · exact ⟨x, h2, hxo⟩
          rcases ih this with ⟨e, he⟩
          exact ⟨e, by simp [convertParams, convertParam, he]⟩
        | otherVal ty =>
          exact ⟨.assertionError
            ("param values are expected to be TVM.NDArray or numpy.ndarray, but got " ++ ty),
            rfl⟩
    rcases hconv with ⟨e, he⟩
    exact ⟨e, by simp [BindParams, he]⟩

/-- C7 witness: a numpy value is converted and delegated alongside an
NDArray value, and a string-valued parameter makes `BindParams` fail. -/
theorem bind_params_conversion_witness :
    BindParams "main" [("w", .npArray ⟨[1, 2]⟩), ("b", .tvmND ⟨[3]⟩)]
        = .ok (.delegated "main" [("w", ⟨[1, 2]⟩), ("b", ⟨[3]⟩)]) ∧
    ∃ e, BindParams "main" [("w", .otherVal "str")] = .error e :=
  ⟨(bind_params_conversion "main" [("w", .npArray ⟨[1, 2]⟩), ("b", .tvmND ⟨[3]⟩)]).1
      (by decide),
   (bind_params_conversion "main" [("w", .otherVal "str")]).2
      ⟨("w", .otherVal "str"), List.mem_cons_self _ _, rfl⟩⟩

/-- C10: `arg` with a `TensorType` and an explicit shape fails with
`ValueError`; with a `TensorType` and no shape it creates the parameter
with the shape and type taken from the TensorType's own fields. -/
theorem arg_tensor_type_rules (n : String) (tt : TensorTypeV) (sh : ShapeV) :
    arg n (.tensorType tt) (some sh)
      = .error (.valueError "Cannot specify the shape if we use TensorType") ∧
    arg n (.tensorType tt) none = .ok ⟨n, tt.type, tt.shape⟩ :=
  ⟨rfl, rfl⟩

end RelaxSpec
